import Mathlib

/-!
Verification of the `shards` training-schedule simulator (src/main.rs, src/types.rs)
against its natural-language specification.

Shallow embedding conventions:
* Rust `f32` quantities are modelled as exact rationals (`ℚ`); all arithmetic the
  program performs on them (+, -, *, floor, comparisons) is embedded exactly.
* Rust `BTreeMap` values are modelled as association lists with distinct keys;
  lookups that would panic (`map[key]`, `.unwrap()`) are modelled with `Option` /
  `Except`, a `panic!` becoming an `Except.error`.
* The LP problem built by `simulate_person` is embedded as a satisfaction
  predicate `Feasible` on variable assignments, one conjunct per constraint
  family in the source, plus the objective function `objective`.
* The external LP solver is a parameter: a function `Person → Option Assignment`;
  its contract (returns a constraint-satisfying, objective-maximal assignment,
  or fails) appears as hypotheses of the theorems that need it.
-/

namespace Shards

abbrev Skill := String
abbrev Segment := String

/-- The `ATTRIBUTES` skill set from `main.rs`. -/
def ATTRIBUTES : List Skill :=
  ["Strength", "Dexterity", "Stamina",
   "Charisma", "Manipulation", "Appearance",
   "Perception", "Intelligence", "Wits"]

/-- The `ABILITIES` skill set from `main.rs`. -/
def ABILITIES : List Skill :=
  ["Archery", "Athletics", "Awareness",
   "Brawl", "Bureaucracy", "Craft",
   "Dodge", "Integrity", "Investigation",
   "Larceny", "Linguistics", "Lore",
   "Martial Arts", "Medicine", "Melee",
   "Occult", "Performance", "Presence",
   "Resistance", "Ride", "Sail",
   "Socialize", "Stealth", "Survival",
   "Thrown", "War",
   "Firearms", "Driving"]

/-- The `PSIONICS` skill set from `main.rs`. -/
def PSIONICS : List Skill := ["Dreamwalking", "Illusion"]

/-- Error kinds corresponding to the program's `panic!` / `.expect` sites
(spec section 7 taxonomy). -/
inductive Err where
  | ordering
  | duplicatePerson
  | unknownPerson
  | missingSkill
  | classification
  | solverFailure
deriving DecidableEq, Repr

def HOURS_PER_WEEK : ℚ := 48
def WEEKS_PER_MONTH : ℚ := 4

/-- Embedding of `effective_training_hours_needed` from `main.rs` lines 386-411.
`f32::floor` is modelled by the rational floor, and the `panic!` on an
unclassifiable skill by `Except.error .classification`. -/
def effectiveTrainingHoursNeeded (skill : Skill) (current_rank : ℚ) : Except Err ℚ :=
  let r : ℚ := (⌊current_rank⌋ : ℚ)
  if r ≤ 0 then
    if skill ∈ ATTRIBUTES then .ok (3 * HOURS_PER_WEEK * WEEKS_PER_MONTH)
    else if skill ∈ ABILITIES then .ok (3 * HOURS_PER_WEEK)
    else if skill ∈ PSIONICS then .ok (2 * HOURS_PER_WEEK)
    else .error .classification
  else
    if skill ∈ ATTRIBUTES then .ok (r * HOURS_PER_WEEK * WEEKS_PER_MONTH)
    else if skill ∈ ABILITIES then .ok (r * HOURS_PER_WEEK)
    else if skill ∈ PSIONICS then .ok (r * HOURS_PER_WEEK)
    else .error .classification

/-- `Overlap` from `types.rs`: a combo of skills and its bonus multiplier. -/
structure Overlap where
  combo : List Skill
  bonus : ℚ
deriving DecidableEq, Repr

/-- `Target` from `types.rs`. -/
structure Target where
  target_ranks : ℚ
  hours_needed : ℚ
deriving DecidableEq, Repr

/-- `Person` from `types.rs`; each `BTreeMap` becomes an association list. -/
structure Person where
  name : String
  skills : List (Skill × ℚ)
  schedule : List (Segment × ℚ)
  safety_limit : List (Skill × ℚ)
  schedule_limit : List (Segment × List Skill)
  overlap : List Overlap
  target : List (Skill × Target)
  preference : List (Skill × ℚ)
deriving DecidableEq, Repr

/-- Association-list lookup, the embedding of `BTreeMap::get`. -/
def alookup {β : Type} (l : List (Skill × β)) (k : Skill) : Option β :=
  match l with
  | [] => none
  | (k2, v) :: rest => if k2 = k then some v else alookup rest k

def DEFAULT_PRIORITY_ORDER : List Skill := ["Integrity", "Dreamwalking", "Illusion", "Lore"]

def DEFAULT_PRIORITY_OFFSET : ℚ := 0

/-- The default preference map built in `Person::new` (`types.rs` lines 78-83):
the reversed priority order, enumerated, each skill mapped to
`1.0 + i * DEFAULT_PRIORITY_OFFSET`. -/
def defaultPreference : List (Skill × ℚ) :=
  DEFAULT_PRIORITY_ORDER.reverse.enum.map
    (fun iw => (iw.2, 1 + (iw.1 : ℚ) * DEFAULT_PRIORITY_OFFSET))

/-- `Person::new` from `types.rs`. -/
def Person.new (name : String) (skills : List (Skill × ℚ)) : Person :=
  { name := name
    skills := skills
    schedule := []
    safety_limit := []
    schedule_limit := []
    overlap := []
    target := []
    preference := defaultPreference }

/-! ## The LP model built by `simulate_person` (`main.rs` lines 197-332)

The decision variables of the problem are embedded as an `Assignment`
of rational values; each constraint family added to `problem` becomes one
conjunct of `Feasible`. -/

/-- An assignment of values to the four families of decision variables
created in `simulate_person`. Functions are total; `Feasible` only ever
inspects them at the keys for which the source creates a variable. -/
structure Assignment where
  roi : Skill → ℚ
  investedSkill : Skill → ℚ
  investedSeg : Segment → ℚ
  investedSegCombo : Segment → List Skill → ℚ

/-- Keys of the `roi` / `invested_skill` maps: the skills with an active
target (`main.rs` lines 203, 211). -/
def targetKeys (p : Person) : List Skill := p.target.map Prod.fst

/-- Keys of the `invested_seg` map: the schedule's segments (line 218). -/
def segKeys (p : Person) : List Segment := p.schedule.map Prod.fst

/-- The distinct combo key vectors of the `invested_seg_combo` map
(line 227-231; the `BTreeMap` deduplicates repeated combo vectors). -/
def comboKeys (p : Person) : List (List Skill) :=
  (p.overlap.map Overlap.combo).eraseDups

/-- The bonus attached to a combo key: the `find`/`unwrap` at lines 292-297,
with 0 for the unreachable missing case. -/
def findBonus (p : Person) (c : List Skill) : ℚ :=
  match p.overlap.find? (fun o => o.combo = c) with
  | some o => o.bonus
  | none => 0

/-- Constraint family 4 right-hand side: total time on the combos containing
a skill, over every segment (lines 261-270). -/
def skillComboSum (p : Person) (a : Assignment) (k : Skill) : ℚ :=
  ((segKeys p).map (fun s =>
    (((comboKeys p).filter (fun c => decide (k ∈ c))).map
      (fun c => a.investedSegCombo s c)).sum)).sum

/-- Constraint family 5 right-hand side: time on each combo of a segment
multiplied by the combo's size (lines 274-283). -/
def segComboSum (p : Person) (a : Assignment) (s : Segment) : ℚ :=
  ((comboKeys p).map (fun c => (c.length : ℚ) * a.investedSegCombo s c)).sum

/-- Constraint family 6 right-hand side: time on the combos containing a
skill, weighted by each combo's bonus (lines 286-302). -/
def roiComboSum (p : Person) (a : Assignment) (k : Skill) : ℚ :=
  ((segKeys p).map (fun s =>
    (((comboKeys p).filter (fun c => decide (k ∈ c))).map
      (fun c => findBonus p c * a.investedSegCombo s c)).sum)).sum

/-- The safety-limit entries for which `simulate_person` actually adds a
constraint: those whose skill has an `invested_skill` variable, i.e. an
active target (the `if let Some` at lines 255-259). -/
def activeSafetyConstraints (p : Person) : List (Skill × ℚ) :=
  p.safety_limit.filter (fun kl => decide (kl.1 ∈ targetKeys p))

/-- A combo is forbidden in a segment when a schedule-limit entry for that
segment exists whose allowed set does not contain the whole combo
(lines 306-322). -/
def comboForbidden (p : Person) (s : Segment) (c : List Skill) : Prop :=
  ∃ sa ∈ p.schedule_limit, sa.1 = s ∧ ¬(∀ x ∈ c, x ∈ sa.2)

instance (p : Person) (s : Segment) (c : List Skill) :
    Decidable (comboForbidden p s c) := by
  unfold comboForbidden
  infer_instance

/-- The constraint set of the LP problem built by `simulate_person`, one
conjunct per constraint family in the source (lines 240-326):
1. non-negativity of every variable;
2. segment totals bounded by the schedule;
3. safety limits on the skills that have a variable;
4. per-skill totals equal the sum over combos containing the skill;
5. per-segment totals equal the size-weighted sum over the segment's combos;
6. per-skill ROI equals the bonus-weighted sum over combos containing it;
7. combos not within a segment's allowed set are forced to zero;
8. ROI never exceeds the remaining hours needed. -/
def Feasible (p : Person) (a : Assignment) : Prop :=
  (∀ k ∈ targetKeys p, 0 ≤ a.investedSkill k) ∧
  (∀ s ∈ segKeys p, 0 ≤ a.investedSeg s) ∧
  (∀ s ∈ segKeys p, ∀ c ∈ comboKeys p, 0 ≤ a.investedSegCombo s c) ∧
  (∀ sl ∈ p.schedule, a.investedSeg sl.1 ≤ sl.2) ∧
  (∀ kl ∈ activeSafetyConstraints p, a.investedSkill kl.1 ≤ kl.2) ∧
  (∀ k ∈ targetKeys p, a.investedSkill k = skillComboSum p a k) ∧
  (∀ s ∈ segKeys p, a.investedSeg s = segComboSum p a s) ∧
  (∀ k ∈ targetKeys p, a.roi k = roiComboSum p a k) ∧
  (∀ s ∈ segKeys p, ∀ c ∈ comboKeys p, comboForbidden p s c → a.investedSegCombo s c = 0) ∧
  (∀ kt ∈ p.target, a.roi kt.1 ≤ kt.2.hours_needed)

instance (p : Person) (a : Assignment) : Decidable (Feasible p a) := by
  unfold Feasible
  infer_instance

/-- The objective coefficient used for a targeted skill: the preference-map
entry (line 237). The `getD 0` default is never reached when the model
construction of `objectiveCoeffs` succeeds. -/
def prefWeight (p : Person) (k : Skill) : ℚ := (alookup p.preference k).getD 0

/-- The objective function of the problem: `Σ preference[skill] × roi[skill]`
over the targeted skills (lines 235-238). -/
def objective (p : Person) (a : Assignment) : ℚ :=
  ((targetKeys p).map (fun k => prefWeight p k * a.roi k)).sum

/-- The construction of the objective at `main.rs` lines 236-238 indexes
`person.preference[skill]`, which panics when a targeted skill has no
preference entry; modelled as an `Except` returning the coefficient list. -/
def objectiveCoeffs (p : Person) : List Skill → Except Err (List (Skill × ℚ))
  | [] => .ok []
  | k :: rest =>
    match alookup p.preference k with
    | none => .error .missingSkill
    | some w =>
      match objectiveCoeffs p rest with
      | .error e => .error e
      | .ok tail => .ok ((k, w) :: tail)

/-- Spec-side definition, for the refinement comparison of C1 only.
Following the spec's words in section 4.2 rule 2: the plain, unweighted sum
over all combos of `invested_combo[segment, combo]`. -/
def specSegmentPlainSum (p : Person) (a : Assignment) (s : Segment) : ℚ :=
  ((comboKeys p).map (fun c => a.investedSegCombo s c)).sum

/-! ## The daily update loop (`simulate_day`, `main.rs` lines 176-194) -/

/-- The per-person target update of `simulate_day` lines 182-191: subtract the
realized ROI from each targeted skill's remaining hours, and drop the target
when the remainder is ≤ 0. -/
def updateTargets : List (Skill × Target) → (Skill → ℚ) → List (Skill × Target)
  | [], _ => []
  | (k, t) :: rest, incr =>
    let remaining := t.hours_needed - incr k
    if remaining ≤ 0 then updateTargets rest incr
    else (k, { t with hours_needed := remaining }) :: updateTargets rest incr

/-- One simulated day for one person, given the assignment the solver
returned: the increments applied are the `roi` values (lines 180-191). -/
def dayStep (p : Person) (a : Assignment) : Person :=
  { p with target := updateTargets p.target a.roi }

/-- The state of one person after `n` simulated days, when day `i`'s solve
returned assignment `sols i`. -/
def simSteps (p : Person) (sols : ℕ → Assignment) : ℕ → Person
  | 0 => p
  | n + 1 => dayStep (simSteps p sols n) (sols n)

/-- The wasted-time diagnostic of `simulate_person` lines 362-369. -/
def wastedTime (p : Person) (a : Assignment) : ℚ :=
  (p.schedule.map (fun sl =>
    if a.investedSeg sl.1 < sl.2 then sl.2 - a.investedSeg sl.1 else 0)).sum

/-! ## The timeline interpreter (`main` at `main.rs` lines 107-162)

Dates are day numbers (`Int`); `NaiveDate::succ` is `+ 1`. The external LP
solver is a parameter `sol : Person → Option Assignment` (`none` models
`solver.run` failing, which the source turns into a panic via `.expect`). -/

/-- The `Task` configuration events from `types.rs`. -/
inductive Task where
  | atDate (date : Int)
  | baseline (name : String) (skills : List (Skill × ℚ))
  | scheduleEvent (name : String) (segment : List (Segment × ℚ))
  | safetyLimitEvent (name : String) (limit : List (Skill × ℚ))
  | scheduleLimitEvent (name : String) (limit : List (Segment × List Skill))
  | overlapEvent (name : String) (whenCombos : List Overlap)
  | targetEvent (name : String) (target : List (Skill × ℚ))

/-- The interpreter state: the current date and the `persons` map. -/
structure SimState where
  now : Int
  persons : List (String × Person)
deriving Repr

/-- `BTreeMap::insert` / in-place update of one person. -/
def setPerson (ps : List (String × Person)) (name : String) (p : Person) :
    List (String × Person) :=
  match ps with
  | [] => [(name, p)]
  | (n, q) :: rest =>
    if n = name then (n, p) :: rest else (n, q) :: setPerson rest name p

/-- The body of the `Task::Target` arm (`main.rs` lines 146-158): for each
requested skill, look up the person's current rank (`person.skills[skill]`,
a panic when absent, modelled as `.error .missingSkill`) and seed
`hours_needed` from the classifier. -/
def buildTargets (skills : List (Skill × ℚ)) :
    List (Skill × ℚ) → Except Err (List (Skill × Target))
  | [] => .ok []
  | (skill, target_ranks) :: rest =>
    match alookup skills skill with
    | none => .error .missingSkill
    | some rank =>
      match effectiveTrainingHoursNeeded skill rank with
      | .error e => .error e
      | .ok hours =>
        match buildTargets skills rest with
        | .error e => .error e
        | .ok tail => .ok ((skill, ⟨target_ranks, hours⟩) :: tail)

/-- `simulate_person`: model construction (whose objective indexes the
preference map, line 237) followed by the solver call (line 330-332), giving
the day's total ROI and the per-skill increments. -/
def simulatePerson (sol : Person → Option Assignment) (p : Person) :
    Except Err (ℚ × (Skill → ℚ)) :=
  match objectiveCoeffs p (targetKeys p) with
  | .error e => .error e
  | .ok _ =>
    match sol p with
    | none => .error .solverFailure
    | some a => .ok (((targetKeys p).map a.roi).sum, a.roi)

/-- `simulate_day` (`main.rs` lines 176-194): solve and update every person. -/
def simulateDay (sol : Person → Option Assignment) :
    List (String × Person) → Except Err (List (String × Person) × ℚ)
  | [] => .ok ([], 0)
  | (n, p) :: rest =>
    match simulatePerson sol p with
    | .error e => .error e
    | .ok (r, incr) =>
      match simulateDay sol rest with
      | .error e => .error e
      | .ok (rest2, rsum) =>
        .ok ((n, { p with target := updateTargets p.target incr }) :: rest2, r + rsum)

/-- The `while now < date` loop of the `Task::At` arm, run for a fixed number
of days. -/
def runDays (sol : Person → Option Assignment)
    (persons : List (String × Person)) : ℕ → Except Err (List (String × Person))
  | 0 => .ok persons
  | n + 1 =>
    match simulateDay sol persons with
    | .error e => .error e
    | .ok (ps, _) => runDays sol ps n

/-- Apply an update to a named person, `persons.get_mut(name).unwrap()`
becoming `.error .unknownPerson` when the person does not exist. -/
def withPerson (st : SimState) (name : String)
    (f : Person → Except Err Person) : Except Err SimState :=
  match alookup st.persons name with
  | none => .error .unknownPerson
  | some p =>
    match f p with
    | .error e => .error e
    | .ok q => .ok { st with persons := setPerson st.persons name q }

/-- One step of the timeline interpreter: the `match task` at `main.rs`
lines 108-161. The `At` guard (lines 110-112) errors before anything is
simulated or any profile touched: the error carries no new state. -/
def runTask (sol : Person → Option Assignment) (st : SimState) :
    Task → Except Err SimState
  | .atDate date =>
    if date ≤ st.now then .error .ordering
    else
      match runDays sol st.persons (date - st.now).toNat with
      | .error e => .error e
      | .ok ps => .ok { now := date, persons := ps }
  | .baseline name skills =>
    if (alookup st.persons name).isSome then .error .duplicatePerson
    else .ok { st with persons := setPerson st.persons name (Person.new name skills) }
  | .scheduleEvent name segment =>
    withPerson st name (fun p => .ok { p with schedule := segment })
  | .safetyLimitEvent name limit =>
    withPerson st name (fun p => .ok { p with safety_limit := limit })
  | .scheduleLimitEvent name limit =>
    withPerson st name (fun p => .ok { p with schedule_limit := limit })
  | .overlapEvent name whenCombos =>
    withPerson st name (fun p =>
      .ok { p with overlap := whenCombos ++ p.skills.map (fun kv => ⟨[kv.1], 1⟩) })
  | .targetEvent name tmap =>
    withPerson st name (fun p =>
      match buildTargets p.skills tmap with
      | .error e => .error e
      | .ok ts => .ok { p with target := ts })

/-! ## Concrete scenario states used by the counterexamples and witnesses -/

/-- The all-zero assignment. -/
def zeroAssign : Assignment :=
  { roi := fun _ => 0
    investedSkill := fun _ => 0
    investedSeg := fun _ => 0
    investedSegCombo := fun _ _ => 0 }

/-- A person with a two-skill combo, for the C1 counterexample: two psionic
targets, one two-hour segment, the pair combo with bonus 5/4 and the two
singleton combos. -/
def comboPairPerson : Person :=
  { name := "Amu"
    skills := [("Dreamwalking", 1), ("Illusion", 1)]
    schedule := [("Seg", 2)]
    safety_limit := []
    schedule_limit := []
    overlap := [⟨["Illusion", "Dreamwalking"], 5/4⟩, ⟨["Dreamwalking"], 1⟩, ⟨["Illusion"], 1⟩]
    target := [("Dreamwalking", ⟨2, 96⟩), ("Illusion", ⟨2, 96⟩)]
    preference := defaultPreference }

/-- An assignment spending the whole segment on the pair combo of
`comboPairPerson`: one raw hour on the combo, counting as two segment hours. -/
def comboPairAssign : Assignment :=
  { roi := fun k => if k = "Dreamwalking" then 5/4 else if k = "Illusion" then 5/4 else 0
    investedSkill := fun k => if k = "Dreamwalking" then 1 else if k = "Illusion" then 1 else 0
    investedSeg := fun _ => 2
    investedSegCombo := fun _ c => if c = ["Illusion", "Dreamwalking"] then 1 else 0 }

/-- The C2 scenario: the only target skill is excluded by a schedule limit
(empty allow-list) from the only segment, so every combo containing it is
forced to zero everywhere. -/
def excludedPerson : Person :=
  { name := "Amu"
    skills := [("Dreamwalking", 1)]
    schedule := [("Seg", 2)]
    safety_limit := []
    schedule_limit := [("Seg", [])]
    overlap := [⟨["Dreamwalking"], 1⟩]
    target := [("Dreamwalking", ⟨2, 48⟩)]
    preference := defaultPreference }

/-- The C6 scenario: one two-hour segment, one target skill with the lone
singleton combo at bonus 1, needing exactly one more effective hour. -/
def oneHourPerson : Person :=
  { name := "Amu"
    skills := [("Dreamwalking", 1)]
    schedule := [("Seg", 2)]
    safety_limit := []
    schedule_limit := []
    overlap := [⟨["Dreamwalking"], 1⟩]
    target := [("Dreamwalking", ⟨2, 1⟩)]
    preference := defaultPreference }

/-- The optimal assignment for `oneHourPerson`: one hour on the singleton
combo, one segment hour used. -/
def oneHourAssign : Assignment :=
  { roi := fun k => if k = "Dreamwalking" then 1 else 0
    investedSkill := fun k => if k = "Dreamwalking" then 1 else 0
    investedSeg := fun _ => 1
    investedSegCombo := fun _ c => if c = ["Dreamwalking"] then 1 else 0 }

/-- The C10 scenario: a safety limit of one hour on the untargeted skill
"Dreamwalking", one five-hour segment, a target on "Integrity" only. -/
def idleSafetyPerson : Person :=
  { name := "Amu"
    skills := [("Dreamwalking", 1), ("Integrity", 3)]
    schedule := [("Seg", 5)]
    safety_limit := [("Dreamwalking", 1)]
    schedule_limit := []
    overlap := [⟨["Dreamwalking"], 1⟩, ⟨["Integrity"], 1⟩]
    target := [("Integrity", ⟨4, 100⟩)]
    preference := defaultPreference }

/-- An assignment for `idleSafetyPerson` spending three hours on the
untargeted, safety-limited skill: triple its safety limit, within segment
capacity. -/
def idleSafetyAssign : Assignment :=
  { roi := fun k => if k = "Integrity" then 2 else 0
    investedSkill := fun k => if k = "Integrity" then 2 else 3
    investedSeg := fun _ => 5
    investedSegCombo := fun _ c =>
      if c = ["Dreamwalking"] then 3 else if c = ["Integrity"] then 2 else 0 }

/-- The C3 counterexample person: no preference scheme was ever configured
(the profile carries `Person::new`'s default preference map), and the one
targeted skill, "Melee", is classifiable but absent from that map. -/
def meleePerson : Person :=
  { Person.new "Mel" [("Melee", 1)] with target := [("Melee", ⟨2, 48⟩)] }

end Shards

namespace Shards

/-! ## Theorems for the Skill Classifier claims -/

/-- Helper: membership in a list whose filter by a predicate is empty refutes
the predicate. -/
theorem not_of_filter_eq_nil {α : Type} (l : List α) (p : α → Bool)
    (h : l.filter p = []) {a : α} (ha : a ∈ l) : p a = false := by
  by_contra hcon
  have hpa : p a = true := by
    cases hp : p a
    · exact absurd hp hcon
    · rfl
  have : a ∈ l.filter p := List.mem_filter.mpr ⟨ha, hpa⟩
  rw [h] at this
  exact absurd this (List.not_mem_nil a)

theorem abilities_not_attributes {s : Skill} (h : s ∈ ABILITIES) : s ∉ ATTRIBUTES := by
  have hf : ABILITIES.filter (fun x => decide (x ∈ ATTRIBUTES)) = [] := by decide
  have := not_of_filter_eq_nil ABILITIES (fun x => decide (x ∈ ATTRIBUTES)) hf h
  simpa using this

theorem psionics_not_attributes {s : Skill} (h : s ∈ PSIONICS) : s ∉ ATTRIBUTES := by
  have hf : PSIONICS.filter (fun x => decide (x ∈ ATTRIBUTES)) = [] := by decide
  have := not_of_filter_eq_nil PSIONICS (fun x => decide (x ∈ ATTRIBUTES)) hf h
  simpa using this

theorem psionics_not_abilities {s : Skill} (h : s ∈ PSIONICS) : s ∉ ABILITIES := by
  have hf : PSIONICS.filter (fun x => decide (x ∈ ABILITIES)) = [] := by decide
  have := not_of_filter_eq_nil PSIONICS (fun x => decide (x ∈ ABILITIES)) hf h
  simpa using this

/-- C5: for every classifiable skill, `effective_hours_needed` returns the fixed
per-category first-rank cost when `floor(rank) ≤ 0` (Attribute: 3×48×4 = 576,
Ability: 3×48 = 144, Psionic: 2×48 = 96), and a cost linear in `r = floor(rank)`
when `r > 0` (Attribute: `r`×192, Ability and Psionic: `r`×48). -/
theorem classifier_costs (skill : Skill) (rank : ℚ) :
    (skill ∈ ATTRIBUTES →
      effectiveTrainingHoursNeeded skill rank =
        .ok (if (⌊rank⌋ : ℚ) ≤ 0 then 3 * 48 * 4 else (⌊rank⌋ : ℚ) * 48 * 4)) ∧
    (skill ∈ ABILITIES →
      effectiveTrainingHoursNeeded skill rank =
        .ok (if (⌊rank⌋ : ℚ) ≤ 0 then 3 * 48 else (⌊rank⌋ : ℚ) * 48)) ∧
    (skill ∈ PSIONICS →
      effectiveTrainingHoursNeeded skill rank =
        .ok (if (⌊rank⌋ : ℚ) ≤ 0 then 2 * 48 else (⌊rank⌋ : ℚ) * 48)) := by
  refine ⟨fun hA => ?_, fun hB => ?_, fun hP => ?_⟩
  · unfold effectiveTrainingHoursNeeded
    simp only [hA, if_pos, HOURS_PER_WEEK, WEEKS_PER_MONTH]
    by_cases hle : (⌊rank⌋ : ℚ) ≤ 0 <;> simp [hle, mul_assoc]
  · have hnA : skill ∉ ATTRIBUTES := abilities_not_attributes hB
    unfold effectiveTrainingHoursNeeded
    simp only [HOURS_PER_WEEK, WEEKS_PER_MONTH]
    by_cases hle : (⌊rank⌋ : ℚ) ≤ 0 <;> simp [hle, hnA, hB]
  · have hnA : skill ∉ ATTRIBUTES := psionics_not_attributes hP
    have hnB : skill ∉ ABILITIES := psionics_not_abilities hP
    unfold effectiveTrainingHoursNeeded
    simp only [HOURS_PER_WEEK, WEEKS_PER_MONTH]
    by_cases hle : (⌊rank⌋ : ℚ) ≤ 0 <;> simp [hle, hnA, hnB, hP]

/-- Witness for C5: concrete evaluations at rank 0 and rank 2.5 for one skill
of each category. -/
theorem classifier_costs_witness :
    effectiveTrainingHoursNeeded "Strength" 0 = .ok 576 ∧
    effectiveTrainingHoursNeeded "Strength" (5/2) = .ok 384 ∧
    effectiveTrainingHoursNeeded "Lore" 0 = .ok 144 ∧
    effectiveTrainingHoursNeeded "Lore" (5/2) = .ok 96 ∧
    effectiveTrainingHoursNeeded "Dreamwalking" 0 = .ok 96 ∧
    effectiveTrainingHoursNeeded "Dreamwalking" (5/2) = .ok 96 := by
  have hS0 := (classifier_costs "Strength" 0).1 (by decide)
  have hS2 := (classifier_costs "Strength" (5/2)).1 (by decide)
  have hL0 := (classifier_costs "Lore" 0).2.1 (by decide)
  have hL2 := (classifier_costs "Lore" (5/2)).2.1 (by decide)
  have hD0 := (classifier_costs "Dreamwalking" 0).2.2 (by decide)
  have hD2 := (classifier_costs "Dreamwalking" (5/2)).2.2 (by decide)
  have hfl0 : (⌊(0 : ℚ)⌋ : ℚ) = 0 := by norm_num
  have hfl2 : (⌊(5/2 : ℚ)⌋ : ℚ) = 2 := by norm_num [Int.floor_eq_iff]
  rw [hfl0] at hS0 hL0 hD0
  rw [hfl2] at hS2 hL2 hD2
  norm_num at hS0 hS2 hL0 hL2 hD0 hD2
  exact ⟨hS0, hS2, hL0, hL2, hD0, hD2⟩

/-- C8: for every skill name outside all three categories,
`effective_hours_needed` returns the classification error for every rank;
it never returns a default cost. -/
theorem classifier_unknown_skill_fatal (skill : Skill) (rank : ℚ)
    (hA : skill ∉ ATTRIBUTES) (hB : skill ∉ ABILITIES) (hP : skill ∉ PSIONICS) :
    effectiveTrainingHoursNeeded skill rank = .error .classification := by
  unfold effectiveTrainingHoursNeeded
  by_cases hle : ((⌊rank⌋ : ℚ)) ≤ 0 <;> simp [hle, hA, hB, hP]

/-- Witness for C8: the unknown skill name "Foo" fails at rank 1. -/
theorem classifier_unknown_skill_fatal_witness :
    effectiveTrainingHoursNeeded "Foo" 1 = .error .classification :=
  classifier_unknown_skill_fatal "Foo" 1 (by decide) (by decide) (by decide)

/-! ## Feasibility of the concrete scenario assignments (shared helpers) -/

theorem feasible_comboPair : Feasible comboPairPerson comboPairAssign := by
  unfold Feasible
  norm_num [show targetKeys comboPairPerson = ["Dreamwalking", "Illusion"] from rfl,
    show segKeys comboPairPerson = ["Seg"] from rfl,
    show comboKeys comboPairPerson =
      [["Illusion", "Dreamwalking"], ["Dreamwalking"], ["Illusion"]] from rfl,
    show comboPairPerson.schedule = [("Seg", 2)] from rfl,
    show comboPairPerson.safety_limit = [] from rfl,
    show comboPairPerson.schedule_limit = [] from rfl,
    show comboPairPerson.target =
      [("Dreamwalking", ⟨2, 96⟩), ("Illusion", ⟨2, 96⟩)] from rfl,
    show activeSafetyConstraints comboPairPerson = [] from rfl,
    show findBonus comboPairPerson ["Illusion", "Dreamwalking"] = 5/4 from rfl,
    show findBonus comboPairPerson ["Dreamwalking"] = 1 from rfl,
    show findBonus comboPairPerson ["Illusion"] = 1 from rfl,
    show ([["Illusion", "Dreamwalking"], ["Dreamwalking"], ["Illusion"]] :
        List (List String)).filter (fun c => decide ("Dreamwalking" ∈ c)) =
      [["Illusion", "Dreamwalking"], ["Dreamwalking"]] from rfl,
    show ([["Illusion", "Dreamwalking"], ["Dreamwalking"], ["Illusion"]] :
        List (List String)).filter (fun c => decide ("Illusion" ∈ c)) =
      [["Illusion", "Dreamwalking"], ["Illusion"]] from rfl,
    skillComboSum, segComboSum, roiComboSum, comboForbidden, comboPairAssign]

theorem feasible_excluded_zero : Feasible excludedPerson zeroAssign := by
  unfold Feasible
  norm_num [show targetKeys excludedPerson = ["Dreamwalking"] from rfl,
    show segKeys excludedPerson = ["Seg"] from rfl,
    show comboKeys excludedPerson = [["Dreamwalking"]] from rfl,
    show excludedPerson.schedule = [("Seg", 2)] from rfl,
    show excludedPerson.safety_limit = [] from rfl,
    show excludedPerson.target = [("Dreamwalking", ⟨2, 48⟩)] from rfl,
    show activeSafetyConstraints excludedPerson = [] from rfl,
    show findBonus excludedPerson ["Dreamwalking"] = 1 from rfl,
    show ([["Dreamwalking"]] : List (List String)).filter
      (fun c => decide ("Dreamwalking" ∈ c)) = [["Dreamwalking"]] from rfl,
    skillComboSum, segComboSum, roiComboSum, zeroAssign]

theorem feasible_oneHour : Feasible oneHourPerson oneHourAssign := by
  unfold Feasible
  norm_num [show targetKeys oneHourPerson = ["Dreamwalking"] from rfl,
    show segKeys oneHourPerson = ["Seg"] from rfl,
    show comboKeys oneHourPerson = [["Dreamwalking"]] from rfl,
    show oneHourPerson.schedule = [("Seg", 2)] from rfl,
    show oneHourPerson.safety_limit = [] from rfl,
    show oneHourPerson.schedule_limit = [] from rfl,
    show oneHourPerson.target = [("Dreamwalking", ⟨2, 1⟩)] from rfl,
    show activeSafetyConstraints oneHourPerson = [] from rfl,
    show findBonus oneHourPerson ["Dreamwalking"] = 1 from rfl,
    show ([["Dreamwalking"]] : List (List String)).filter
      (fun c => decide ("Dreamwalking" ∈ c)) = [["Dreamwalking"]] from rfl,
    skillComboSum, segComboSum, roiComboSum, comboForbidden, oneHourAssign]

theorem feasible_idleSafety : Feasible idleSafetyPerson idleSafetyAssign := by
  unfold Feasible
  norm_num [show targetKeys idleSafetyPerson = ["Integrity"] from rfl,
    show segKeys idleSafetyPerson = ["Seg"] from rfl,
    show comboKeys idleSafetyPerson = [["Dreamwalking"], ["Integrity"]] from rfl,
    show idleSafetyPerson.schedule = [("Seg", 5)] from rfl,
    show idleSafetyPerson.safety_limit = [("Dreamwalking", 1)] from rfl,
    show idleSafetyPerson.schedule_limit = [] from rfl,
    show idleSafetyPerson.target = [("Integrity", ⟨4, 100⟩)] from rfl,
    show activeSafetyConstraints idleSafetyPerson = [] from rfl,
    show findBonus idleSafetyPerson ["Integrity"] = 1 from rfl,
    show ([["Dreamwalking"], ["Integrity"]] : List (List String)).filter
      (fun c => decide ("Integrity" ∈ c)) = [["Integrity"]] from rfl,
    skillComboSum, segComboSum, roiComboSum, comboForbidden, idleSafetyAssign,
    (by decide : ("Integrity" : String) ≠ "Dreamwalking"),
    (by decide : ¬ (["Integrity"] : List String) = ["Dreamwalking"])]

/-! ## C1: segment accounting -/

/-- C1 counterexample: in the model of `comboPairPerson`, the assignment
`comboPairAssign` satisfies every constraint, yet `invested_segment["Seg"]`
is 2 while the plain, unweighted sum of `invested_combo["Seg", c]` over all
combos is 1: the constraint set uses the combo-size-weighted sum, so the
claim's entailment is false. -/
theorem seg_plain_sum_counterexample :
    ("Seg", (2 : ℚ)) ∈ comboPairPerson.schedule ∧
    Feasible comboPairPerson comboPairAssign ∧
    comboPairAssign.investedSeg "Seg" = 2 ∧
    specSegmentPlainSum comboPairPerson comboPairAssign "Seg" = 1 := by
  refine ⟨by decide, feasible_comboPair, rfl, ?_⟩
  norm_num [specSegmentPlainSum,
    show comboKeys comboPairPerson =
      [["Illusion", "Dreamwalking"], ["Dreamwalking"], ["Illusion"]] from rfl,
    comboPairAssign]

/-- C1 (amended): for every segment in the schedule, the constraint set
entails `invested_segment[s] == Σ_combo |combo| × invested_combo[s, combo]`
(the combo-size-weighted sum, `main.rs` lines 272-283) and
`invested_segment[s] <= schedule[s]`. -/
theorem seg_sum_weighted (p : Person) (a : Assignment)
    (hF : Feasible p a) (sl : Segment × ℚ) (hsl : sl ∈ p.schedule) :
    a.investedSeg sl.1 = segComboSum p a sl.1 ∧ a.investedSeg sl.1 ≤ sl.2 := by
  obtain ⟨-, -, -, h2, -, -, h5, -⟩ := hF
  have hmem : sl.1 ∈ segKeys p := List.mem_map_of_mem Prod.fst hsl
  exact ⟨h5 sl.1 hmem, h2 sl hsl⟩

/-- Witness for C1's amended theorem at `comboPairPerson`. -/
theorem seg_sum_weighted_witness :
    comboPairAssign.investedSeg "Seg" =
      segComboSum comboPairPerson comboPairAssign "Seg" ∧
    comboPairAssign.investedSeg "Seg" ≤ 2 :=
  seg_sum_weighted comboPairPerson comboPairAssign feasible_comboPair
    ("Seg", 2) (by decide)

/-! ## C10: safety limits are silently ignored for untargeted skills -/

/-- C10: `simulate_person` adds a safety-limit constraint for a skill only
when the skill also has an active target (the `if let Some` over
`invested_skill` at `main.rs` lines 255-259); a safety limit configured for
an untargeted skill produces no constraint, and concretely the model of
`idleSafetyPerson` admits an assignment giving a combo containing the
safety-limited, untargeted skill three hours against a limit of one, within
segment capacity. -/
theorem safety_limit_requires_target :
    (∀ (p : Person) (k : Skill) (l : ℚ),
      k ∉ targetKeys p → (k, l) ∉ activeSafetyConstraints p) ∧
    "Dreamwalking" ∉ targetKeys idleSafetyPerson ∧
    alookup idleSafetyPerson.safety_limit "Dreamwalking" = some 1 ∧
    Feasible idleSafetyPerson idleSafetyAssign ∧
    idleSafetyAssign.investedSegCombo "Seg" ["Dreamwalking"] = 3 := by
  refine ⟨?_, by decide, by norm_num [idleSafetyPerson, alookup], feasible_idleSafety, rfl⟩
  intro p k l hk hmem
  have := List.mem_filter.mp hmem
  exact hk (by simpa using this.2)

/-- Witness for C10 at `idleSafetyPerson`: the untargeted skill's safety
limit is not among the constraints the model receives. -/
theorem safety_limit_requires_target_witness :
    ("Dreamwalking", (1 : ℚ)) ∉ activeSafetyConstraints idleSafetyPerson :=
  safety_limit_requires_target.1 idleSafetyPerson "Dreamwalking" 1 (by decide)

/-! ## C2: an excluded target skill leaves the model feasible and the loop
does not terminate -/

/-- C2 counterexample: for `excludedPerson` every combo containing the only
target skill is schedule-limit-forbidden in every segment (the claim's
premise), yet the all-zero assignment satisfies the whole constraint set, so
the model is not infeasible and no `ModelInfeasible` failure can be
surfaced by a sound solver. -/
theorem excluded_skill_model_feasible :
    (∀ s ∈ segKeys excludedPerson, ∀ c ∈ comboKeys excludedPerson,
      "Dreamwalking" ∈ c → comboForbidden excludedPerson s c) ∧
    Feasible excludedPerson zeroAssign :=
  ⟨by decide, feasible_excluded_zero⟩

/-- Every feasible solution of the `excludedPerson` model realizes zero ROI
for the excluded skill. -/
theorem excluded_roi_zero {a : Assignment}
    (hF : Feasible excludedPerson a) : a.roi "Dreamwalking" = 0 := by
  obtain ⟨-, -, -, -, -, -, -, hroi, hforb, -⟩ := hF
  have hvar : a.investedSegCombo "Seg" ["Dreamwalking"] = 0 :=
    hforb "Seg" (by decide) ["Dreamwalking"] (by decide) (by decide)
  have h := hroi "Dreamwalking" (by decide)
  rw [h]
  norm_num [roiComboSum,
    show segKeys excludedPerson = ["Seg"] from rfl,
    show comboKeys excludedPerson = [["Dreamwalking"]] from rfl,
    show findBonus excludedPerson ["Dreamwalking"] = 1 from rfl,
    show ([["Dreamwalking"]] : List (List String)).filter
      (fun c => decide ("Dreamwalking" ∈ c)) = [["Dreamwalking"]] from rfl,
    hvar]

/-- A day's update leaves `excludedPerson` unchanged whenever the solver
returned a constraint-satisfying assignment. -/
theorem excluded_dayStep {a : Assignment}
    (hF : Feasible excludedPerson a) : dayStep excludedPerson a = excludedPerson := by
  have h0 := excluded_roi_zero hF
  unfold dayStep
  have ht : updateTargets excludedPerson.target a.roi = excludedPerson.target := by
    norm_num [updateTargets,
      show excludedPerson.target = [("Dreamwalking", (⟨2, 48⟩ : Target))] from rfl, h0]
  rw [ht]

/-- C2 (amended): for `excludedPerson` the model stays feasible each day
(the all-zero assignment satisfies it, see the counterexample), every
feasible solve returns zero ROI for the excluded skill, so whatever
constraint-satisfying assignments the solver produces, the person's state
never changes and the target set is non-empty after every number of days:
the depletion loop of `main` (lines 167-171) never terminates, rather than
a `ModelInfeasible` error surfacing. -/
theorem excluded_skill_nontermination (sols : ℕ → Assignment)
    (hsols : ∀ n, Feasible (simSteps excludedPerson sols n) (sols n)) :
    ∀ n, simSteps excludedPerson sols n = excludedPerson ∧
      targetKeys (simSteps excludedPerson sols n) ≠ [] := by
  have hstate : ∀ n, simSteps excludedPerson sols n = excludedPerson := by
    intro n
    induction n with
    | zero => rfl
    | succ m ih =>
      have hf : Feasible excludedPerson (sols m) := by
        have := hsols m
        rwa [ih] at this
      show dayStep (simSteps excludedPerson sols m) (sols m) = excludedPerson
      rw [ih]
      exact excluded_dayStep hf
  intro n
  refine ⟨hstate n, ?_⟩
  rw [hstate n]
  decide

/-- The all-zero solver keeps `excludedPerson` fixed across days. -/
theorem excluded_zero_steps :
    ∀ n, simSteps excludedPerson (fun _ => zeroAssign) n = excludedPerson := by
  intro n
  induction n with
  | zero => rfl
  | succ m ih =>
    show dayStep (simSteps excludedPerson (fun _ => zeroAssign) m) zeroAssign = excludedPerson
    rw [ih]
    exact excluded_dayStep feasible_excluded_zero

/-- Witness for C2's amended theorem: with the all-zero (feasible) solver
output each day, the target set is still non-empty after three days. -/
theorem excluded_skill_nontermination_witness :
    targetKeys (simSteps excludedPerson (fun _ => zeroAssign) 3) ≠ [] :=
  (excluded_skill_nontermination (fun _ => zeroAssign)
    (fun n => by rw [excluded_zero_steps n]; exact feasible_excluded_zero) 3).2

/-! ## C4: ROI bound and depletion update -/

/-- Lookup in `updateTargets` for a key absent from the original map. -/
theorem alookup_updateTargets_of_not_mem (l : List (Skill × Target))
    (incr : Skill → ℚ) (k : Skill) (h : k ∉ l.map Prod.fst) :
    alookup (updateTargets l incr) k = none := by
  induction l with
  | nil => rfl
  | cons hd tl ih =>
    obtain ⟨k2, t2⟩ := hd
    have hne : k2 ≠ k := by
      intro hcon
      exact h (by simp [hcon])
    have htl : k ∉ tl.map Prod.fst := by
      intro hcon
      exact h (by simp [hcon])
    simp only [updateTargets]
    split
    · exact ih htl
    · simp only [alookup, if_neg hne]
      exact ih htl

/-- Lookup in `updateTargets` at a key of the original map, given distinct
keys: the entry survives with the decremented hours exactly when the
remainder is positive. -/
theorem alookup_updateTargets (l : List (Skill × Target)) (incr : Skill → ℚ)
    (k : Skill) (t : Target) (hnd : (l.map Prod.fst).Nodup)
    (hmem : (k, t) ∈ l) :
    alookup (updateTargets l incr) k =
      if t.hours_needed - incr k ≤ 0 then none
      else some ⟨t.target_ranks, t.hours_needed - incr k⟩ := by
  induction l with
  | nil => cases hmem
  | cons hd tl ih =>
    obtain ⟨k2, t2⟩ := hd
    have hnd2 : (tl.map Prod.fst).Nodup := (List.nodup_cons.mp hnd).2
    rcases List.mem_cons.mp hmem with hhd | htl
    · injection hhd with hk ht
      subst hk
      subst ht
      have hknotl : k ∉ tl.map Prod.fst := by
        simpa using (List.nodup_cons.mp hnd).1
      simp only [updateTargets]
      split
      · exact alookup_updateTargets_of_not_mem tl incr k hknotl
      · simp [alookup]
    · have hkintl : k ∈ tl.map Prod.fst :=
        List.mem_map_of_mem Prod.fst htl
      have hne : k2 ≠ k := by
        intro hcon
        have := (List.nodup_cons.mp hnd).1
        simp only at this
        exact this (hcon ▸ hkintl)
      simp only [updateTargets]
      split
      · exact ih hnd2 htl
      · simp only [alookup, if_neg hne]
        exact ih hnd2 htl

/-- C4: for a targeted skill, any constraint-satisfying solve gives
`roi ≤ hours_needed`; after the day's update the remaining hours equal
`max 0 (before - roi)` when the target survives, and the target is retired
(absent from the new map) exactly when `before - roi ≤ 0`
(`simulate_day`, `main.rs` lines 182-191, with constraint 8 of the model). -/
theorem roi_depletion (p : Person) (a : Assignment) (k : Skill) (t : Target)
    (hF : Feasible p a) (hmem : (k, t) ∈ p.target)
    (hnd : (targetKeys p).Nodup) :
    a.roi k ≤ t.hours_needed ∧
    (alookup (updateTargets p.target a.roi) k = none ↔
      t.hours_needed - a.roi k ≤ 0) ∧
    alookup (updateTargets p.target a.roi) k =
      (if t.hours_needed - a.roi k ≤ 0 then none
       else some ⟨t.target_ranks, max 0 (t.hours_needed - a.roi k)⟩) := by
  obtain ⟨-, -, -, -, -, -, -, -, -, h8⟩ := hF
  have hle : a.roi k ≤ t.hours_needed := h8 (k, t) hmem
  have heq := alookup_updateTargets p.target a.roi k t hnd hmem
  refine ⟨hle, ?_, ?_⟩
  · rw [heq]
    by_cases hc : t.hours_needed - a.roi k ≤ 0 <;> simp [hc]
  · rw [heq]
    by_cases hc : t.hours_needed - a.roi k ≤ 0
    · simp [hc]
    · have hpos : 0 ≤ t.hours_needed - a.roi k := le_of_lt (lt_of_not_le hc)
      simp [hc, max_eq_right hpos]

/-- Witness for C4 at the one-hour scenario: the solved ROI of 1 meets the
remaining hour exactly and the target is retired. -/
theorem roi_depletion_witness :
    oneHourAssign.roi "Dreamwalking" ≤ (⟨2, 1⟩ : Target).hours_needed ∧
    (alookup (updateTargets oneHourPerson.target oneHourAssign.roi)
        "Dreamwalking" = none ↔
      (⟨2, 1⟩ : Target).hours_needed - oneHourAssign.roi "Dreamwalking" ≤ 0) ∧
    alookup (updateTargets oneHourPerson.target oneHourAssign.roi)
        "Dreamwalking" =
      (if (⟨2, 1⟩ : Target).hours_needed - oneHourAssign.roi "Dreamwalking" ≤ 0
       then none
       else some ⟨(⟨2, 1⟩ : Target).target_ranks,
         max 0 ((⟨2, 1⟩ : Target).hours_needed -
           oneHourAssign.roi "Dreamwalking")⟩) :=
  roi_depletion oneHourPerson oneHourAssign "Dreamwalking" ⟨2, 1⟩
    feasible_oneHour (by decide) (by decide)

/-! ## C6: the one-hour scenario -/

/-- The default preference map evaluates to weight 1 for each of the four
priority-order skills (the offset is 0). -/
theorem defaultPreference_eval :
    defaultPreference =
      [("Lore", 1), ("Illusion", 1), ("Dreamwalking", 1), ("Integrity", 1)] := by
  have h1 : DEFAULT_PRIORITY_ORDER.reverse =
      ["Lore", "Illusion", "Dreamwalking", "Integrity"] := rfl
  unfold defaultPreference
  rw [h1]
  norm_num [List.enum, List.enumFrom, DEFAULT_PRIORITY_OFFSET]

/-- In the `oneHourPerson` model, every constraint-satisfying assignment ties
ROI, invested skill time and invested segment time to the single combo
variable, and bounds ROI by the one remaining hour. -/
theorem oneHour_roi_eq (a : Assignment) (hF : Feasible oneHourPerson a) :
    a.roi "Dreamwalking" = a.investedSegCombo "Seg" ["Dreamwalking"] ∧
    a.investedSkill "Dreamwalking" = a.investedSegCombo "Seg" ["Dreamwalking"] ∧
    a.investedSeg "Seg" = a.investedSegCombo "Seg" ["Dreamwalking"] ∧
    a.roi "Dreamwalking" ≤ 1 := by
  obtain ⟨-, -, -, -, -, h4, h5, h6, -, h8⟩ := hF
  have hr := h6 "Dreamwalking" (by decide)
  have hs := h4 "Dreamwalking" (by decide)
  have hg := h5 "Seg" (by decide)
  have hb := h8 ("Dreamwalking", (⟨2, 1⟩ : Target)) (by decide)
  norm_num [roiComboSum, skillComboSum, segComboSum,
    show segKeys oneHourPerson = ["Seg"] from rfl,
    show comboKeys oneHourPerson = [["Dreamwalking"]] from rfl,
    show findBonus oneHourPerson ["Dreamwalking"] = 1 from rfl,
    show ([["Dreamwalking"]] : List (List String)).filter
      (fun c => decide ("Dreamwalking" ∈ c)) = [["Dreamwalking"]] from rfl] at hr hs hg
  exact ⟨hr, hs, hg, by simpa using hb⟩

/-- The objective of the `oneHourPerson` model is exactly the single skill's
ROI (default preference weight 1). -/
theorem oneHour_objective (a : Assignment) :
    objective oneHourPerson a = a.roi "Dreamwalking" := by
  have hlk : alookup oneHourPerson.preference "Dreamwalking" = some 1 := by
    rw [show oneHourPerson.preference = defaultPreference from rfl,
      defaultPreference_eval]
    simp [alookup]
  norm_num [objective, show targetKeys oneHourPerson = ["Dreamwalking"] from rfl,
    prefWeight, hlk]

/-- C6: with a single two-hour segment, a single targeted skill carrying
only its singleton combo at bonus 1 and exactly one effective hour left,
every optimal solve allocates exactly one hour (ROI 1, one segment hour),
one hour is wasted, and the day's update retires the only target, so the
target set empties after exactly one simulated day. -/
theorem one_hour_scenario (a : Assignment)
    (hF : Feasible oneHourPerson a)
    (hOpt : ∀ b, Feasible oneHourPerson b →
      objective oneHourPerson b ≤ objective oneHourPerson a) :
    a.roi "Dreamwalking" = 1 ∧
    a.investedSkill "Dreamwalking" = 1 ∧
    a.investedSeg "Seg" = 1 ∧
    wastedTime oneHourPerson a = 1 ∧
    targetKeys oneHourPerson ≠ [] ∧
    updateTargets oneHourPerson.target a.roi = [] := by
  obtain ⟨hroi_var, hskill_var, hseg_var, hle⟩ := oneHour_roi_eq a hF
  have hopt1 := hOpt oneHourAssign feasible_oneHour
  rw [oneHour_objective, oneHour_objective] at hopt1
  have hone : oneHourAssign.roi "Dreamwalking" = 1 := rfl
  rw [hone] at hopt1
  have hroi : a.roi "Dreamwalking" = 1 := le_antisymm hle hopt1
  have hseg : a.investedSeg "Seg" = 1 := by rw [hseg_var, ← hroi_var, hroi]
  refine ⟨hroi, by rw [hskill_var, ← hroi_var, hroi], hseg, ?_, by decide, ?_⟩
  · norm_num [wastedTime, show oneHourPerson.schedule = [("Seg", 2)] from rfl, hseg]
  · norm_num [updateTargets,
      show oneHourPerson.target = [("Dreamwalking", (⟨2, 1⟩ : Target))] from rfl, hroi]

/-- Witness for C6 at the explicit optimal assignment. -/
theorem one_hour_scenario_witness :
    oneHourAssign.roi "Dreamwalking" = 1 ∧
    oneHourAssign.investedSkill "Dreamwalking" = 1 ∧
    oneHourAssign.investedSeg "Seg" = 1 ∧
    wastedTime oneHourPerson oneHourAssign = 1 ∧
    targetKeys oneHourPerson ≠ [] ∧
    updateTargets oneHourPerson.target oneHourAssign.roi = [] :=
  one_hour_scenario oneHourAssign feasible_oneHour
    (fun b hb => by
      rw [oneHour_objective, oneHour_objective]
      have hble := (oneHour_roi_eq b hb).2.2.2
      have hone : oneHourAssign.roi "Dreamwalking" = 1 := rfl
      rw [hone]
      exact hble)

/-! ## C3: objective weights come from the default preference map -/

/-- C3 counterexample: `meleePerson` has no configured preference scheme
(its preference map is `Person::new`'s default) and targets the classifiable
skill "Melee"; building the objective fails with the map-index panic instead
of defaulting the weight to 1, so model construction does not succeed for
every targeted skill. -/
theorem default_pref_missing_skill :
    meleePerson.preference = defaultPreference ∧
    "Melee" ∈ ABILITIES ∧
    targetKeys meleePerson = ["Melee"] ∧
    objectiveCoeffs meleePerson (targetKeys meleePerson) =
      .error .missingSkill :=
  ⟨rfl, by decide, rfl, rfl⟩

/-- Lookup of any of the four priority-order skills in the default
preference map yields weight 1. -/
theorem alookup_defaultPreference (k : Skill)
    (hk : k ∈ DEFAULT_PRIORITY_ORDER) : alookup defaultPreference k = some 1 := by
  rw [defaultPreference_eval]
  simp only [DEFAULT_PRIORITY_ORDER, List.mem_cons, List.not_mem_nil, or_false] at hk
  rcases hk with rfl | rfl | rfl | rfl <;> simp [alookup]

/-- C3 (amended): for an individual with no configured preference scheme
(the default map), the objective uses weight 1 for every targeted skill that
appears in the default priority order, and equals the plain sum of the
targeted skills' ROI; model construction succeeds whenever all targeted
skills lie in that map (and, per the counterexample, panics otherwise). -/
theorem default_pref_objective (p : Person)
    (hpref : p.preference = defaultPreference)
    (htv : ∀ k ∈ targetKeys p, k ∈ DEFAULT_PRIORITY_ORDER) :
    objectiveCoeffs p (targetKeys p) =
      .ok ((targetKeys p).map (fun k => (k, 1))) ∧
    ∀ a, objective p a = ((targetKeys p).map a.roi).sum := by
  constructor
  · have hgen : ∀ l : List Skill, (∀ k ∈ l, k ∈ DEFAULT_PRIORITY_ORDER) →
        objectiveCoeffs p l = .ok (l.map (fun k => (k, 1))) := by
      intro l hl
      induction l with
      | nil => rfl
      | cons hd tl ih =>
        have hhd : alookup p.preference hd = some 1 := by
          rw [hpref]
          exact alookup_defaultPreference hd (hl hd (by simp))
        have htl := ih (fun k hk => hl k (by simp [hk]))
        simp only [objectiveCoeffs, hhd, htl, List.map_cons]
    exact hgen (targetKeys p) htv
  · intro a
    unfold objective
    have hcong : ∀ k ∈ targetKeys p, prefWeight p k * a.roi k = a.roi k := by
      intro k hk
      have hlk : alookup p.preference k = some 1 := by
        rw [hpref]
        exact alookup_defaultPreference k (htv k hk)
      simp [prefWeight, hlk]
    rw [List.map_congr_left hcong]

/-- Witness for C3's amended theorem at `excludedPerson`, whose single
target "Dreamwalking" is in the default priority order. -/
theorem default_pref_objective_witness :
    objectiveCoeffs excludedPerson (targetKeys excludedPerson) =
      .ok [("Dreamwalking", 1)] := by
  have h := (default_pref_objective excludedPerson rfl (by decide)).1
  simpa using h

/-! ## C7: backward date jumps are rejected before any mutation -/

/-- C7: an `At` event whose date is at or before the current simulated date
makes the interpreter fail with the ordering error (`main.rs` lines
110-112); the guard runs before the simulation loop and before any profile
update, and the returned value carries no new state, so nothing is mutated
before the failure. -/
theorem at_date_guard (sol : Person → Option Assignment) (st : SimState)
    (date : Int) (h : date ≤ st.now) :
    runTask sol st (.atDate date) = .error .ordering := by
  simp [runTask, h]

/-- Witness for C7: jumping to day 0 while already at day 0 is rejected. -/
theorem at_date_guard_witness :
    runTask (fun _ => none) ⟨0, []⟩ (.atDate 0) = .error .ordering :=
  at_date_guard (fun _ => none) ⟨0, []⟩ 0 (by norm_num)

/-! ## C9: targeting a skill the person does not have fails fatally -/

/-- Seeding targets fails (with some fatal error) whenever one of the
requested skills is absent from the person's skill map: the rank lookup
`person.skills[skill]` has no entry to return, and no rank of 0 is
assumed. -/
theorem buildTargets_error_of_missing (skills : List (Skill × ℚ))
    (tmap : List (Skill × ℚ)) (skill : Skill) (r : ℚ)
    (hmem : (skill, r) ∈ tmap) (habs : alookup skills skill = none) :
    ∃ e, buildTargets skills tmap = .error e := by
  induction tmap with
  | nil => cases hmem
  | cons hd tl ih =>
    obtain ⟨k2, r2⟩ := hd
    rcases List.mem_cons.mp hmem with hhd | htl
    · injection hhd with hk hr
      subst hk
      exact ⟨.missingSkill, by simp only [buildTargets, habs]⟩
    · cases hlk : alookup skills k2 with
      | none => exact ⟨.missingSkill, by simp only [buildTargets, hlk]⟩
      | some rank =>
        cases heth : effectiveTrainingHoursNeeded k2 rank with
        | error e => exact ⟨e, by simp only [buildTargets, hlk, heth]⟩
        | ok hours =>
          obtain ⟨e, he⟩ := ih htl
          exact ⟨e, by simp only [buildTargets, hlk, heth, he]⟩

/-- C9: a set-targets event naming a skill absent from the individual's
skill-rank map fails fatally (the map-index panic modelled as an error)
rather than treating the rank as 0. -/
theorem target_event_missing_skill (sol : Person → Option Assignment)
    (st : SimState) (name : String) (p : Person) (tmap : List (Skill × ℚ))
    (skill : Skill) (r : ℚ)
    (hp : alookup st.persons name = some p)
    (hmem : (skill, r) ∈ tmap)
    (habs : alookup p.skills skill = none) :
    ∃ e, runTask sol st (.targetEvent name tmap) = .error e := by
  obtain ⟨e, he⟩ := buildTargets_error_of_missing p.skills tmap skill r hmem habs
  exact ⟨e, by simp only [runTask, withPerson, hp, he]⟩

/-- Witness for C9: targeting "Occult" for a person who only has "Lore". -/
theorem target_event_missing_skill_witness :
    ∃ e, runTask (fun _ => none)
      ⟨0, [("Amu", Person.new "Amu" [("Lore", 1)])]⟩
      (.targetEvent "Amu" [("Occult", 2)]) = .error e :=
  target_event_missing_skill (fun _ => none)
    ⟨0, [("Amu", Person.new "Amu" [("Lore", 1)])]⟩ "Amu"
    (Person.new "Amu" [("Lore", 1)]) [("Occult", 2)] "Occult" 2
    rfl (by simp) rfl

end Shards
